import Mathlib

/-!
Shallow embedding of the rorth2 interpreter (src/main.rs): a Forth-like
REPL core consisting of a lexer (parse), a code generator (codegen) and a
virtual machine (run), plus theorems checking the specification claims.

Rust panics (unwrap on None, index out of bounds, explicit panic!,
unimplemented!, division by zero, and debug-profile integer overflow) are
modelled as error values of the RtError type: an error result corresponds
to the Rust process aborting while executing that line.
-/

namespace Rorth2

/-- Rust enum OpCode (src/main.rs lines 5-22). -/
inductive OpCode where
  | dup
  | drop
  | swap
  | over
  | add
  | sub
  | mul
  | div
  | beginDefine
  | endDefine
  | push
  | pop
  | printStack
  | printTop
  | exit
  deriving DecidableEq, Repr

/-- Rust enum TokenId (src/main.rs lines 24-34). -/
inductive TokenId where
  | plus
  | minus
  | star
  | slash
  | text
  | digit
  | colon
  | semicolon
  deriving DecidableEq, Repr

/-- Rust enum Value (src/main.rs lines 36-41). The Ins variant holds a
Box of Instruction; since Instruction is just an opcode with a value
list, the boxed instruction is inlined here as its two components. -/
inductive Value where
  | int : Int → Value
  | str : String → Value
  | ins : OpCode → List Value → Value
  deriving Repr

/-- Rust struct Instruction (src/main.rs lines 104-108). -/
structure Instruction where
  opcode : OpCode
  values : List Value
  deriving Repr

/-- Rust struct Token (src/main.rs lines 110-114). -/
structure Token where
  id : TokenId
  itself : Option String
  deriving Repr

/-- Rust struct CustomCommand (src/main.rs lines 116-120). -/
structure CustomCommand where
  name : String
  instructions : List Instruction
  deriving Repr

/-- Rust struct VirtualMachine (src/main.rs lines 122-127).
The operand stack is a list with its head as the top of the stack
(Rust pushes and pops at the Vec tail). -/
structure VM where
  stack : List Value
  custom_commands : List CustomCommand
  ip : Nat
  deriving Repr

/-- VirtualMachine::new (src/main.rs lines 130-132). -/
def VM.initial : VM := ⟨[], [], 0⟩

/-- The Rust panics that can abort a line: unwrap of a None pop, a slice
index out of range, the explicit panic "Expected an Instruction" in
BeginDefine, the unimplemented macro (mixed-type arithmetic and the
missing EndDefine arm of run), division by zero, and debug-profile i32
overflow. outOfFuel is an artifact of the fuel-bounded embedding of the
recursive run loop and never occurs at the fuel used in the theorems. -/
inductive RtError where
  | unwrapNone
  | indexOutOfBounds
  | expectedInstruction
  | unimplementedOp
  | divideByZero
  | overflow
  | outOfFuel
  deriving DecidableEq, Repr

/-- Representable range of Rust i32: -(2^31) to 2^31 - 1. -/
def fitsI32 (n : Int) : Bool := decide (-(2 ^ 31) ≤ n ∧ n ≤ 2 ^ 31 - 1)

/-- impl Add for Value (src/main.rs lines 43-52): defined only when both
operands are Int, otherwise unimplemented!(). Rust i32 addition aborts on
overflow in the default debug profile, modelled as the overflow error. -/
def valueAdd : Value → Value → Except RtError Value
  | Value.int a, Value.int b =>
      if fitsI32 (a + b) then Except.ok (Value.int (a + b)) else Except.error RtError.overflow
  | _, _ => Except.error RtError.unimplementedOp

/-- impl Sub for Value (src/main.rs lines 54-63). -/
def valueSub : Value → Value → Except RtError Value
  | Value.int a, Value.int b =>
      if fitsI32 (a - b) then Except.ok (Value.int (a - b)) else Except.error RtError.overflow
  | _, _ => Except.error RtError.unimplementedOp

/-- impl Mul for Value (src/main.rs lines 65-74). -/
def valueMul : Value → Value → Except RtError Value
  | Value.int a, Value.int b =>
      if fitsI32 (a * b) then Except.ok (Value.int (a * b)) else Except.error RtError.overflow
  | _, _ => Except.error RtError.unimplementedOp

/-- impl Div for Value (src/main.rs lines 76-85): Rust i32 division
truncates toward zero (Int.tdiv), aborts on a zero divisor and on the
overflowing case MIN / -1. -/
def valueDiv : Value → Value → Except RtError Value
  | Value.int a, Value.int b =>
      if b = 0 then Except.error RtError.divideByZero
      else if fitsI32 (Int.tdiv a b) then Except.ok (Value.int (Int.tdiv a b))
      else Except.error RtError.overflow
  | _, _ => Except.error RtError.unimplementedOp

/-- Debug escaping of one character inside a Rust string Debug render
(used only through Value::Ins formatting, which no compiled program
reaches). -/
def charDebug (c : Char) : String :=
  if c = '"' then "\\\""
  else if c = '\\' then "\\\\"
  else if c = '\n' then "\\n"
  else if c = '\t' then "\\t"
  else if c = '\r' then "\\r"
  else String.mk [c]

/-- Rust format of a String with the Debug formatter. -/
def strDebug (s : String) : String :=
  "\"" ++ String.join (s.data.map charDebug) ++ "\""

/-- Rust Debug render of an OpCode variant name. -/
def opcodeDebug : OpCode → String
  | OpCode.dup => "Dup"
  | OpCode.drop => "Drop"
  | OpCode.swap => "Swap"
  | OpCode.over => "Over"
  | OpCode.add => "Add"
  | OpCode.sub => "Sub"
  | OpCode.mul => "Mul"
  | OpCode.div => "Div"
  | OpCode.beginDefine => "BeginDefine"
  | OpCode.endDefine => "EndDefine"
  | OpCode.push => "Push"
  | OpCode.pop => "Pop"
  | OpCode.printStack => "PrintStack"
  | OpCode.printTop => "PrintTop"
  | OpCode.exit => "Exit"

mutual

/-- Rust Debug render of a Value, needed by Value::get_str on the Ins
variant (format with the Debug formatter, src/main.rs line 92). -/
def valueDebug : Value → String
  | Value.int i => "Int(" ++ toString i ++ ")"
  | Value.str s => "Str(" ++ strDebug s ++ ")"
  | Value.ins op vals =>
      "Ins(Instruction \x7b opcode: " ++ opcodeDebug op ++ ", values: ["
        ++ valuesDebug vals ++ "] \x7d)"

/-- Debug render of a Vec of Values, comma separated. -/
def valuesDebug : List Value → String
  | [] => ""
  | [v] => valueDebug v
  | v :: rest => valueDebug v ++ ", " ++ valuesDebug rest

end

/-- Value::get_str (src/main.rs lines 88-94). -/
def Value.get_str : Value → String
  | Value.int i => toString i
  | Value.str s => s
  | Value.ins op vals =>
      "Instruction \x7b opcode: " ++ opcodeDebug op ++ ", values: ["
        ++ valuesDebug vals ++ "] \x7d"

/-- Value::get_int (src/main.rs lines 95-101). -/
def Value.get_int : Value → Int
  | Value.int a => a
  | Value.str _ => 0
  | Value.ins _ _ => -1

/-! ## Lexer: VirtualMachine::parse (src/main.rs lines 334-388) -/

/-- Rust char::is_ascii_whitespace, the split predicate of
split_ascii_whitespace: space, tab, line feed, form feed, carriage
return (code points 32, 9, 10, 12, 13). -/
def isAsciiWs (c : Char) : Bool :=
  decide (c.toNat = 32 ∨ c.toNat = 9 ∨ c.toNat = 10 ∨ c.toNat = 12 ∨ c.toNat = 13)

/-- Accumulating splitter over the character list: collects maximal runs
of non-whitespace characters, discarding empty chunks. -/
def splitAux : List Char → List Char → List String
  | [], acc => if acc.isEmpty then [] else [String.mk acc.reverse]
  | c :: rest, acc =>
      if isAsciiWs c then
        if acc.isEmpty then splitAux rest [] else String.mk acc.reverse :: splitAux rest []
      else splitAux rest (c :: acc)

/-- Rust str::split_ascii_whitespace collected to a Vec
(src/main.rs line 336). -/
def splitAsciiWhitespace (s : String) : List String := splitAux s.data []

/-- Rust word.starts_with("\"") for the one-character pattern: the first
character is the double quote (code point 34). -/
def beginsWithQuote (s : String) : Bool :=
  match s.data with
  | [] => false
  | c :: _ => decide (c.toNat = 34)

/-- Rust word.ends_with("\"") for the one-character pattern: the last
character is the double quote. -/
def finishesWithQuote (s : String) : Bool :=
  match s.data.getLast? with
  | none => false
  | some c => decide (c.toNat = 34)

/-- Rust char is_ascii_digit test used by i32 parsing. -/
def isDigitCh (c : Char) : Bool := decide (48 ≤ c.toNat ∧ c.toNat ≤ 57)

/-- Numeric value of an ASCII digit character. -/
def digitVal (c : Char) : Nat := c.toNat - 48

/-- Rust parse of an i32: optional sign, at least one ASCII digit,
nothing else, and the value must fit in i32; returns none on any
failure. -/
def parseI32 (s : String) : Option Int :=
  match s.data with
  | [] => none
  | c :: cs =>
      let p : Bool × List Char :=
        if c = '-' then (true, cs)
        else if c = '+' then (false, cs)
        else (false, c :: cs)
      if p.2.isEmpty then none
      else if p.2.all isDigitCh then
        let n : Nat := p.2.foldl (fun acc d => acc * 10 + digitVal d) 0
        if p.1 then
          if n ≤ 2 ^ 31 then some (-(n : Int)) else none
        else
          if n ≤ 2 ^ 31 - 1 then some ((n : Int)) else none
      else none

/-- The quoted-string reassembly while loop (src/main.rs lines 346-355):
keep consuming following words, joined by single spaces, until one ends
with a double quote; running off the end of the word list is the Rust
index-out-of-bounds panic at words[i+j]. -/
def reassemble (acc : String) : List String → Except RtError String
  | [] => Except.error RtError.indexOutOfBounds
  | w :: ws =>
      if finishesWithQuote w then Except.ok (acc ++ " " ++ w)
      else reassemble (acc ++ " " ++ w) ws

/-- The body of one iteration of the parse loop (src/main.rs lines
338-386) for the word at the current index, with rest the words after
it: returns the tokens this iteration appends. -/
def lexWord (word : String) (rest : List String) : Except RtError (List Token) :=
  if beginsWithQuote word then
    if finishesWithQuote word then
      Except.ok [⟨TokenId.text, some word⟩]
    else do
      let s ← reassemble word rest
      Except.ok [⟨TokenId.text, some s⟩]
  else if finishesWithQuote word then
    Except.ok []
  else
    match parseI32 word with
    | some _ => Except.ok [⟨TokenId.digit, some word⟩]
    | none =>
        if word = "+" then Except.ok [⟨TokenId.plus, none⟩]
        else if word = "-" then Except.ok [⟨TokenId.minus, none⟩]
        else if word = "*" then Except.ok [⟨TokenId.star, none⟩]
        else if word = "/" then Except.ok [⟨TokenId.slash, none⟩]
        else if word = ":" then Except.ok [⟨TokenId.colon, none⟩]
        else if word = ";" then Except.ok [⟨TokenId.semicolon, none⟩]
        else if word = "DUP" ∨ word = "DROP" ∨ word = "SWAP" ∨ word = "OVER"
             ∨ word = "PRINT" ∨ word = "POP" ∨ word = "EXIT" then
          Except.ok [⟨TokenId.text, some word⟩]
        else
          -- The wildcard arm (src/main.rs lines 376-382). Its quote
          -- stripping branch is unreachable: a word that begins with a
          -- quote was already consumed by the branch at line 341.
          if beginsWithQuote word ∧ finishesWithQuote word then
            Except.ok [⟨TokenId.text, some (String.mk word.data.dropLast.tail)⟩]
          else
            Except.ok [⟨TokenId.text, some word⟩]

/-- The parse loop over word indices: the Rust loop advances the index
by one every iteration even after a quoted reassembly, so every word is
visited. -/
def lexWords : List String → Except RtError (List Token)
  | [] => Except.ok []
  | word :: rest => do
      let toks ← lexWord word rest
      let more ← lexWords rest
      Except.ok (toks ++ more)

/-- VirtualMachine::parse (src/main.rs lines 334-388). -/
def parse (command : String) : Except RtError (List Token) :=
  lexWords (splitAsciiWhitespace command)

/-! ## Code generator: VirtualMachine::codegen (src/main.rs lines 270-332) -/

/-- One iteration of the codegen token loop (src/main.rs lines 274-327),
threading the instruction list and the declaration and definition mode
flags. The unwrap calls of the Digit arm are modelled as errors when
they would panic. -/
def codegenStep (st : List Instruction × Bool × Bool) (tok : Token) :
    Except RtError (List Instruction × Bool × Bool) :=
  let opcodes := st.1
  let declaration_mode := st.2.1
  let definition_mode := st.2.2
  match tok.id with
  | TokenId.plus =>
      Except.ok (opcodes ++ [⟨OpCode.add, []⟩], declaration_mode, definition_mode)
  | TokenId.minus =>
      Except.ok (opcodes ++ [⟨OpCode.sub, []⟩], declaration_mode, definition_mode)
  | TokenId.star =>
      Except.ok (opcodes ++ [⟨OpCode.mul, []⟩], declaration_mode, definition_mode)
  | TokenId.slash =>
      Except.ok (opcodes ++ [⟨OpCode.div, []⟩], declaration_mode, definition_mode)
  | TokenId.colon =>
      Except.ok (opcodes, true, definition_mode)
  | TokenId.semicolon =>
      Except.ok (opcodes ++ [⟨OpCode.endDefine, []⟩], declaration_mode, false)
  | TokenId.digit =>
      match tok.itself with
      | none => Except.error RtError.unwrapNone
      | some s =>
          match parseI32 s with
          | none => Except.error RtError.unwrapNone
          | some n =>
              Except.ok (opcodes ++ [⟨OpCode.push, [Value.int n]⟩],
                declaration_mode, definition_mode)
  | TokenId.text =>
      match tok.itself with
      | none => Except.ok (opcodes, declaration_mode, definition_mode)
      | some a =>
          if a = "DUP" then
            Except.ok (opcodes ++ [⟨OpCode.dup, []⟩], declaration_mode, definition_mode)
          else if a = "DROP" then
            Except.ok (opcodes ++ [⟨OpCode.drop, []⟩], declaration_mode, definition_mode)
          else if a = "SWAP" then
            Except.ok (opcodes ++ [⟨OpCode.swap, []⟩], declaration_mode, definition_mode)
          else if a = "OVER" then
            Except.ok (opcodes ++ [⟨OpCode.over, []⟩], declaration_mode, definition_mode)
          else if a = "PRINT" then
            Except.ok (opcodes ++ [⟨OpCode.printStack, []⟩], declaration_mode, definition_mode)
          else if a = "POP" then
            Except.ok (opcodes ++ [⟨OpCode.pop, []⟩], declaration_mode, definition_mode)
          else if a = "EXIT" then
            Except.ok (opcodes ++ [⟨OpCode.exit, []⟩], declaration_mode, definition_mode)
          else if declaration_mode then
            Except.ok (opcodes ++ [⟨OpCode.beginDefine, [Value.str a]⟩], false, true)
          else if definition_mode then
            -- opcodes[opcodes.len()-1].values.push(...): appends the
            -- text onto the operand list of the most recent instruction;
            -- with no instruction yet this is the usize underflow panic.
            match opcodes.getLast? with
            | none => Except.error RtError.indexOutOfBounds
            | some last =>
                Except.ok (opcodes.dropLast ++ [⟨last.opcode, last.values ++ [Value.str a]⟩],
                  declaration_mode, definition_mode)
          else
            Except.ok (opcodes ++ [⟨OpCode.push, [Value.str a]⟩],
              declaration_mode, definition_mode)

/-- VirtualMachine::codegen (src/main.rs lines 270-332): fold the token
loop from empty state, then the post pass appending PrintTop when the
sequence is nonempty and does not already end in PrintStack. -/
def codegen (tokens : List Token) : Except RtError (List Instruction) := do
  let st ← tokens.foldlM codegenStep ([], false, false)
  let opcodes := st.1
  match opcodes.getLast? with
  | some last =>
      if last.opcode = OpCode.printStack then Except.ok opcodes
      else Except.ok (opcodes ++ [⟨OpCode.printTop, []⟩])
  | none => Except.ok opcodes

/-! ## Virtual machine: VirtualMachine::run (src/main.rs lines 142-268) -/

/-- The BeginDefine operand loop (src/main.rs lines 205-213): every
operand after the name must be an Ins value, anything else is the
explicit panic "Expected an Instruction". -/
def extractIns : List Value → Except RtError (List Instruction)
  | [] => Except.ok []
  | Value.ins op vals :: rest => do
      let more ← extractIns rest
      Except.ok (⟨op, vals⟩ :: more)
  | _ :: _ => Except.error RtError.expectedInstruction

/-- The custom command scan of the Push arm (src/main.rs lines 222-227):
every table entry whose name equals the operand string is run on a clone
of the virtual machine through runClone, the result of the clone run is
discarded (only a panic, here an error, propagates), and the returned
flag records whether any entry matched. -/
def runCmdsWith (runClone : List Instruction → Except RtError (VM × Bool))
    (name : String) : List CustomCommand → Except RtError Bool
  | [] => Except.ok false
  | cmd :: rest =>
      if cmd.name = name then do
        let _ ← runClone cmd.instructions
        let _ ← runCmdsWith runClone name rest
        Except.ok true
      else runCmdsWith runClone name rest

/-- The fetch-execute loop of VirtualMachine::run (src/main.rs lines
145-266), with the instruction pointer, stack and word table threaded
through the VM record and the should-exit flag threaded explicitly. The
fuel argument bounds the number of executed instructions, including
those of recursively invoked custom words; it only decreases across
steps and is no part of the Rust code. -/
def runLoop : Nat → VM → Bool → List Instruction → Except RtError (VM × Bool)
  | 0, vm, should_exit, instructions =>
      if vm.ip < instructions.length then Except.error RtError.outOfFuel
      else Except.ok (vm, should_exit)
  | fuel + 1, vm, should_exit, instructions =>
      if h : vm.ip < instructions.length then
        let ins := instructions.get ⟨vm.ip, h⟩
        match ins.opcode with
        | OpCode.add =>
            match vm.stack with
            | b :: a :: rest => do
                let v ← valueAdd a b
                runLoop fuel ⟨v :: rest, vm.custom_commands, vm.ip + 1⟩ should_exit instructions
            | _ => Except.error RtError.unwrapNone
        | OpCode.sub =>
            match vm.stack with
            | b :: a :: rest => do
                let v ← valueSub a b
                runLoop fuel ⟨v :: rest, vm.custom_commands, vm.ip + 1⟩ should_exit instructions
            | _ => Except.error RtError.unwrapNone
        | OpCode.mul =>
            match vm.stack with
            | b :: a :: rest => do
                let v ← valueMul a b
                runLoop fuel ⟨v :: rest, vm.custom_commands, vm.ip + 1⟩ should_exit instructions
            | _ => Except.error RtError.unwrapNone
        | OpCode.div =>
            match vm.stack with
            | b :: a :: rest => do
                let v ← valueDiv a b
                runLoop fuel ⟨v :: rest, vm.custom_commands, vm.ip + 1⟩ should_exit instructions
            | _ => Except.error RtError.unwrapNone
        | OpCode.dup =>
            match vm.stack with
            | a :: rest =>
                runLoop fuel ⟨a :: a :: rest, vm.custom_commands, vm.ip + 1⟩ should_exit instructions
            | [] => Except.error RtError.unwrapNone
        | OpCode.drop =>
            -- let _ = self.stack.pop(): the Option is discarded, an
            -- empty stack is not an error.
            runLoop fuel ⟨vm.stack.tail, vm.custom_commands, vm.ip + 1⟩ should_exit instructions
        | OpCode.swap =>
            match vm.stack with
            | b :: a :: rest =>
                runLoop fuel ⟨a :: b :: rest, vm.custom_commands, vm.ip + 1⟩ should_exit instructions
            | _ => Except.error RtError.unwrapNone
        | OpCode.over =>
            match vm.stack with
            | b :: a :: rest =>
                runLoop fuel ⟨a :: b :: a :: rest, vm.custom_commands, vm.ip + 1⟩ should_exit instructions
            | _ => Except.error RtError.unwrapNone
        | OpCode.beginDefine =>
            match ins.values with
            | [] => Except.error RtError.indexOutOfBounds
            | name :: restVals => do
                let body ← extractIns restVals
                -- ip += 1 before the operand loop, ip += values.len()-1
                -- after it; the new entry is appended to the table.
                runLoop fuel
                  ⟨vm.stack, vm.custom_commands ++ [⟨name.get_str, body⟩],
                    vm.ip + 1 + restVals.length⟩
                  should_exit instructions
        | OpCode.push =>
            match ins.values with
            | [] => Except.error RtError.indexOutOfBounds
            | val :: _ => do
                -- self.clone().run(&cmd.instructions): the word body runs
                -- on a clone of the current machine with its instruction
                -- pointer reset by run; the clone is then dropped.
                let is_cmd ← runCmdsWith
                  (fun body => runLoop fuel ⟨vm.stack, vm.custom_commands, 0⟩ false body)
                  val.get_str vm.custom_commands
                runLoop fuel
                  ⟨if is_cmd then vm.stack else val :: vm.stack, vm.custom_commands, vm.ip + 1⟩
                  should_exit instructions
        | OpCode.pop =>
            runLoop fuel ⟨vm.stack.tail, vm.custom_commands, vm.ip + 1⟩ should_exit instructions
        | OpCode.printStack =>
            -- Printing to stdout is outside the embedding.
            runLoop fuel ⟨vm.stack, vm.custom_commands, vm.ip + 1⟩ should_exit instructions
        | OpCode.printTop =>
            runLoop fuel ⟨vm.stack, vm.custom_commands, vm.ip + 1⟩ should_exit instructions
        | OpCode.exit =>
            runLoop fuel ⟨vm.stack, vm.custom_commands, vm.ip + 1⟩ true instructions
        | OpCode.endDefine =>
            -- The wildcard arm of the run dispatch (src/main.rs lines
            -- 259-261): unimplemented!().
            Except.error RtError.unimplementedOp
      else Except.ok (vm, should_exit)

/-- VirtualMachine::run (src/main.rs lines 142-268): reset the
instruction pointer to zero, then execute the loop. Returns the final
machine and the should-exit flag. -/
def run (fuel : Nat) (vm : VM) (instructions : List Instruction) :
    Except RtError (VM × Bool) :=
  runLoop fuel ⟨vm.stack, vm.custom_commands, 0⟩ false instructions

/-- VirtualMachine::execute (src/main.rs lines 138-140): one REPL line
through lexer, code generator and virtual machine. -/
def execute (fuel : Nat) (vm : VM) (command : String) : Except RtError (VM × Bool) := do
  let tokens ← parse command
  let instructions ← codegen tokens
  run fuel vm instructions

/-- A plausible single word of an input line: nonempty, free of ASCII
whitespace, and containing no double quote character. Every string that
parses as an i32 is of this shape. -/
abbrev wordLike (s : String) : Prop :=
  s.data ≠ [] ∧ ∀ c ∈ s.data, isAsciiWs c = false ∧ c.toNat ≠ 34

/-! ## Helper lemmas -/

theorem string_mk_data (s : String) : String.mk s.data = s := by
  cases s
  rfl

theorem ok_bind {α β : Type} (x : α) (f : α → Except RtError β) :
    (Except.ok x >>= f) = f x := rfl

theorem runLoop_done (fuel : Nat) (vm : VM) (se : Bool) (instrs : List Instruction)
    (h : ¬ vm.ip < instrs.length) : runLoop fuel vm se instrs = Except.ok (vm, se) := by
  cases fuel with
  | zero => simp [runLoop, h]
  | succ n => simp [runLoop, h]

theorem all_digits_of_parse_branch (ds : List Char) (x : Option Int) (a : Int)
    (h : (if ds.isEmpty = true then none
          else if ds.all isDigitCh = true then x else none) = some a) :
    ds.all isDigitCh = true := by
  by_cases hB : ds.all isDigitCh = true
  · exact hB
  · by_cases hA : ds.isEmpty = true
    · rw [if_pos hA] at h; exact absurd h (by simp)
    · rw [if_neg hA, if_neg hB] at h; exact absurd h (by simp)

theorem parseI32_chars (s : String) (a : Int) (h : parseI32 s = some a) :
    s.data ≠ [] ∧ ∀ c ∈ s.data, c.toNat = 45 ∨ c.toNat = 43 ∨ (48 ≤ c.toNat ∧ c.toNat ≤ 57) := by
  unfold parseI32 at h
  cases hd : s.data with
  | nil => rw [hd] at h; exact absurd h (by simp)
  | cons c0 cs =>
      rw [hd] at h
      dsimp only at h
      refine ⟨by simp, ?_⟩
      intro c hc
      by_cases h0 : c0 = '-'
      · rw [if_pos h0] at h
        dsimp only at h
        have hall := all_digits_of_parse_branch cs _ a h
        rcases List.mem_cons.mp hc with hc0 | hcs
        · left; rw [hc0, h0]; rfl
        · exact Or.inr (Or.inr (of_decide_eq_true (List.all_eq_true.mp hall c hcs)))
      · by_cases hp : c0 = '+'
        · rw [if_neg h0, if_pos hp] at h
          dsimp only at h
          have hall := all_digits_of_parse_branch cs _ a h
          rcases List.mem_cons.mp hc with hc0 | hcs
          · right; left; rw [hc0, hp]; rfl
          · exact Or.inr (Or.inr (of_decide_eq_true (List.all_eq_true.mp hall c hcs)))
        · rw [if_neg h0, if_neg hp] at h
          dsimp only at h
          have hall := all_digits_of_parse_branch (c0 :: cs) _ a h
          exact Or.inr (Or.inr (of_decide_eq_true (List.all_eq_true.mp hall c hc)))

theorem parseI32_wordLike (s : String) (a : Int) (h : parseI32 s = some a) : wordLike s := by
  obtain ⟨hne, hchars⟩ := parseI32_chars s a h
  refine ⟨hne, ?_⟩
  intro c hc
  rcases hchars c hc with h45 | h43 | hdig
  · constructor
    · apply decide_eq_false; omega
    · omega
  · constructor
    · apply decide_eq_false; omega
    · omega
  · constructor
    · apply decide_eq_false; omega
    · omega

theorem beginsWithQuote_eq_false (s : String) (h : wordLike s) : beginsWithQuote s = false := by
  unfold beginsWithQuote
  cases hd : s.data with
  | nil => rfl
  | cons c cs =>
      have hmem : c ∈ s.data := by rw [hd]; exact List.mem_cons_self c cs
      exact decide_eq_false (h.2 c hmem).2

theorem finishesWithQuote_eq_false (s : String) (h : wordLike s) :
    finishesWithQuote s = false := by
  unfold finishesWithQuote
  cases hd : s.data.getLast? with
  | none => rfl
  | some c =>
      have hmem : c ∈ s.data := by
        obtain ⟨hne, hc⟩ := List.mem_getLast?_eq_getLast (Option.mem_def.mpr hd)
        rw [hc]
        exact List.getLast_mem hne
      exact decide_eq_false (h.2 c hmem).2

theorem splitAux_chunk (w : List Char) (h : ∀ c ∈ w, isAsciiWs c = false) :
    ∀ tail acc, splitAux (w ++ tail) acc = splitAux tail (w.reverse ++ acc) := by
  induction w with
  | nil => intro tail acc; simp
  | cons c w ih =>
      intro tail acc
      have hc : isAsciiWs c = false := h c (List.mem_cons_self c w)
      have hstep : splitAux ((c :: w) ++ tail) acc = splitAux (w ++ tail) (c :: acc) := by
        simp [splitAux, hc]
      rw [hstep, ih (fun d hd => h d (List.mem_cons_of_mem c hd)) tail (c :: acc)]
      simp

theorem splitAux_space (rest : List Char) (acc : List Char) (hne : acc ≠ []) :
    splitAux (' ' :: rest) acc = String.mk acc.reverse :: splitAux rest [] := by
  have hsp : isAsciiWs ' ' = true := rfl
  simp [splitAux, hsp, hne]

theorem split_line (cmd sa sb sop : String) (ha : wordLike sa) (hb : wordLike sb)
    (hc : wordLike sop)
    (hdata : cmd.data = sa.data ++ ' ' :: (sb.data ++ ' ' :: sop.data)) :
    splitAsciiWhitespace cmd = [sa, sb, sop] := by
  unfold splitAsciiWhitespace
  rw [hdata]
  rw [splitAux_chunk sa.data (fun c hcm => (ha.2 c hcm).1) _ []]
  rw [splitAux_space _ _ (by simp [ha.1])]
  rw [splitAux_chunk sb.data (fun c hcm => (hb.2 c hcm).1) _ []]
  rw [splitAux_space _ _ (by simp [hb.1])]
  rw [show sop.data = sop.data ++ [] from (List.append_nil _).symm]
  rw [splitAux_chunk sop.data (fun c hcm => (hc.2 c hcm).1) [] []]
  simp [splitAux, hc.1, string_mk_data]

theorem lexWord_digit (w : String) (a : Int) (h : parseI32 w = some a) (rest : List String) :
    lexWord w rest = Except.ok [⟨TokenId.digit, some w⟩] := by
  have hw := parseI32_wordLike w a h
  unfold lexWord
  rw [beginsWithQuote_eq_false w hw, finishesWithQuote_eq_false w hw, h]
  rfl

theorem parse_line (cmd sa sb sop : String) (a b : Int) (toks : List Token)
    (ha : parseI32 sa = some a) (hb : parseI32 sb = some b)
    (hop : wordLike sop) (htok : lexWord sop [] = Except.ok toks)
    (hdata : cmd.data = sa.data ++ ' ' :: (sb.data ++ ' ' :: sop.data)) :
    parse cmd = Except.ok ([⟨TokenId.digit, some sa⟩, ⟨TokenId.digit, some sb⟩] ++ toks) := by
  unfold parse
  rw [split_line cmd sa sb sop (parseI32_wordLike sa a ha) (parseI32_wordLike sb b hb) hop hdata]
  simp [lexWords, lexWord_digit sa a ha, lexWord_digit sb b hb, htok, ok_bind]

theorem run_add_prog (fuel : Nat) (a b : Int) (h1 : fitsI32 (a + b) = true) :
    runLoop (fuel + 4) ⟨[], [], 0⟩ false
      [⟨OpCode.push, [Value.int a]⟩, ⟨OpCode.push, [Value.int b]⟩,
        ⟨OpCode.add, []⟩, ⟨OpCode.printTop, []⟩]
    = Except.ok (⟨[Value.int (a + b)], [], 4⟩, false) := by
  have s1 : runLoop (fuel + 4) ⟨[], [], 0⟩ false
      [⟨OpCode.push, [Value.int a]⟩, ⟨OpCode.push, [Value.int b]⟩,
        ⟨OpCode.add, []⟩, ⟨OpCode.printTop, []⟩]
      = (valueAdd (Value.int a) (Value.int b) >>= fun v =>
          runLoop (fuel + 1) ⟨[v], [], 3⟩ false
            [⟨OpCode.push, [Value.int a]⟩, ⟨OpCode.push, [Value.int b]⟩,
              ⟨OpCode.add, []⟩, ⟨OpCode.printTop, []⟩]) := rfl
  rw [s1, show valueAdd (Value.int a) (Value.int b)
      = Except.ok (Value.int (a + b)) by simp [valueAdd, h1], ok_bind]
  have s2 : runLoop (fuel + 1) ⟨[Value.int (a + b)], [], 3⟩ false
      [⟨OpCode.push, [Value.int a]⟩, ⟨OpCode.push, [Value.int b]⟩,
        ⟨OpCode.add, []⟩, ⟨OpCode.printTop, []⟩]
      = runLoop fuel ⟨[Value.int (a + b)], [], 4⟩ false
        [⟨OpCode.push, [Value.int a]⟩, ⟨OpCode.push, [Value.int b]⟩,
          ⟨OpCode.add, []⟩, ⟨OpCode.printTop, []⟩] := rfl
  rw [s2]
  exact runLoop_done fuel ⟨[Value.int (a + b)], [], 4⟩ false _ (by simp)

theorem run_sub_prog (fuel : Nat) (a b : Int) (h1 : fitsI32 (a - b) = true) :
    runLoop (fuel + 4) ⟨[], [], 0⟩ false
      [⟨OpCode.push, [Value.int a]⟩, ⟨OpCode.push, [Value.int b]⟩,
        ⟨OpCode.sub, []⟩, ⟨OpCode.printTop, []⟩]
    = Except.ok (⟨[Value.int (a - b)], [], 4⟩, false) := by
  have s1 : runLoop (fuel + 4) ⟨[], [], 0⟩ false
      [⟨OpCode.push, [Value.int a]⟩, ⟨OpCode.push, [Value.int b]⟩,
        ⟨OpCode.sub, []⟩, ⟨OpCode.printTop, []⟩]
      = (valueSub (Value.int a) (Value.int b) >>= fun v =>
          runLoop (fuel + 1) ⟨[v], [], 3⟩ false
            [⟨OpCode.push, [Value.int a]⟩, ⟨OpCode.push, [Value.int b]⟩,
              ⟨OpCode.sub, []⟩, ⟨OpCode.printTop, []⟩]) := rfl
  rw [s1, show valueSub (Value.int a) (Value.int b)
      = Except.ok (Value.int (a - b)) by simp [valueSub, h1], ok_bind]
  have s2 : runLoop (fuel + 1) ⟨[Value.int (a - b)], [], 3⟩ false
      [⟨OpCode.push, [Value.int a]⟩, ⟨OpCode.push, [Value.int b]⟩,
        ⟨OpCode.sub, []⟩, ⟨OpCode.printTop, []⟩]
      = runLoop fuel ⟨[Value.int (a - b)], [], 4⟩ false
        [⟨OpCode.push, [Value.int a]⟩, ⟨OpCode.push, [Value.int b]⟩,
          ⟨OpCode.sub, []⟩, ⟨OpCode.printTop, []⟩] := rfl
  rw [s2]
  exact runLoop_done fuel ⟨[Value.int (a - b)], [], 4⟩ false _ (by simp)

theorem run_mul_prog (fuel : Nat) (a b : Int) (h1 : fitsI32 (a * b) = true) :
    runLoop (fuel + 4) ⟨[], [], 0⟩ false
      [⟨OpCode.push, [Value.int a]⟩, ⟨OpCode.push, [Value.int b]⟩,
        ⟨OpCode.mul, []⟩, ⟨OpCode.printTop, []⟩]
    = Except.ok (⟨[Value.int (a * b)], [], 4⟩, false) := by
  have s1 : runLoop (fuel + 4) ⟨[], [], 0⟩ false
      [⟨OpCode.push, [Value.int a]⟩, ⟨OpCode.push, [Value.int b]⟩,
        ⟨OpCode.mul, []⟩, ⟨OpCode.printTop, []⟩]
      = (valueMul (Value.int a) (Value.int b) >>= fun v =>
          runLoop (fuel + 1) ⟨[v], [], 3⟩ false
            [⟨OpCode.push, [Value.int a]⟩, ⟨OpCode.push, [Value.int b]⟩,
              ⟨OpCode.mul, []⟩, ⟨OpCode.printTop, []⟩]) := rfl
  rw [s1, show valueMul (Value.int a) (Value.int b)
      = Except.ok (Value.int (a * b)) by simp [valueMul, h1], ok_bind]
  have s2 : runLoop (fuel + 1) ⟨[Value.int (a * b)], [], 3⟩ false
      [⟨OpCode.push, [Value.int a]⟩, ⟨OpCode.push, [Value.int b]⟩,
        ⟨OpCode.mul, []⟩, ⟨OpCode.printTop, []⟩]
      = runLoop fuel ⟨[Value.int (a * b)], [], 4⟩ false
        [⟨OpCode.push, [Value.int a]⟩, ⟨OpCode.push, [Value.int b]⟩,
          ⟨OpCode.mul, []⟩, ⟨OpCode.printTop, []⟩] := rfl
  rw [s2]
  exact runLoop_done fuel ⟨[Value.int (a * b)], [], 4⟩ false _ (by simp)

theorem run_div_prog (fuel : Nat) (a b : Int) (hb0 : b ≠ 0)
    (h1 : fitsI32 (Int.tdiv a b) = true) :
    runLoop (fuel + 4) ⟨[], [], 0⟩ false
      [⟨OpCode.push, [Value.int a]⟩, ⟨OpCode.push, [Value.int b]⟩,
        ⟨OpCode.div, []⟩, ⟨OpCode.printTop, []⟩]
    = Except.ok (⟨[Value.int (Int.tdiv a b)], [], 4⟩, false) := by
  have s1 : runLoop (fuel + 4) ⟨[], [], 0⟩ false
      [⟨OpCode.push, [Value.int a]⟩, ⟨OpCode.push, [Value.int b]⟩,
        ⟨OpCode.div, []⟩, ⟨OpCode.printTop, []⟩]
      = (valueDiv (Value.int a) (Value.int b) >>= fun v =>
          runLoop (fuel + 1) ⟨[v], [], 3⟩ false
            [⟨OpCode.push, [Value.int a]⟩, ⟨OpCode.push, [Value.int b]⟩,
              ⟨OpCode.div, []⟩, ⟨OpCode.printTop, []⟩]) := rfl
  rw [s1, show valueDiv (Value.int a) (Value.int b)
      = Except.ok (Value.int (Int.tdiv a b)) by simp [valueDiv, hb0, h1], ok_bind]
  have s2 : runLoop (fuel + 1) ⟨[Value.int (Int.tdiv a b)], [], 3⟩ false
      [⟨OpCode.push, [Value.int a]⟩, ⟨OpCode.push, [Value.int b]⟩,
        ⟨OpCode.div, []⟩, ⟨OpCode.printTop, []⟩]
      = runLoop fuel ⟨[Value.int (Int.tdiv a b)], [], 4⟩ false
        [⟨OpCode.push, [Value.int a]⟩, ⟨OpCode.push, [Value.int b]⟩,
          ⟨OpCode.div, []⟩, ⟨OpCode.printTop, []⟩] := rfl
  rw [s2]
  exact runLoop_done fuel ⟨[Value.int (Int.tdiv a b)], [], 4⟩ false _ (by simp)

theorem execute_add_line (sa sb : String) (a b : Int) (fuel : Nat)
    (ha : parseI32 sa = some a) (hb : parseI32 sb = some b)
    (hadd : fitsI32 (a + b) = true) :
    execute (fuel + 4) VM.initial (sa ++ " " ++ sb ++ " +")
      = Except.ok (⟨[Value.int (a + b)], [], 4⟩, false) := by
  have hdata : (sa ++ " " ++ sb ++ " +").data
      = sa.data ++ ' ' :: (sb.data ++ ' ' :: ("+" : String).data) := by
    simp [String.data_append, show (" " : String).data = [' '] from rfl,
      show (" +" : String).data = [' ', '+'] from rfl,
      show ("+" : String).data = ['+'] from rfl]
  have htoks := parse_line (sa ++ " " ++ sb ++ " +") sa sb "+" a b
    [⟨TokenId.plus, none⟩] ha hb (by decide) rfl hdata
  have hcg : codegen
      [⟨TokenId.digit, some sa⟩, ⟨TokenId.digit, some sb⟩, ⟨TokenId.plus, none⟩]
      = Except.ok [⟨OpCode.push, [Value.int a]⟩, ⟨OpCode.push, [Value.int b]⟩,
          ⟨OpCode.add, []⟩, ⟨OpCode.printTop, []⟩] := by
    simp [codegen, codegenStep, ha, hb, List.foldlM, ok_bind]
  unfold execute
  rw [htoks, ok_bind]
  simp only [List.cons_append, List.nil_append]
  rw [hcg, ok_bind]
  exact run_add_prog fuel a b hadd

theorem execute_sub_line (sa sb : String) (a b : Int) (fuel : Nat)
    (ha : parseI32 sa = some a) (hb : parseI32 sb = some b)
    (hsub : fitsI32 (a - b) = true) :
    execute (fuel + 4) VM.initial (sa ++ " " ++ sb ++ " -")
      = Except.ok (⟨[Value.int (a - b)], [], 4⟩, false) := by
  have hdata : (sa ++ " " ++ sb ++ " -").data
      = sa.data ++ ' ' :: (sb.data ++ ' ' :: ("-" : String).data) := by
    simp [String.data_append, show (" " : String).data = [' '] from rfl,
      show (" -" : String).data = [' ', '-'] from rfl,
      show ("-" : String).data = ['-'] from rfl]
  have htoks := parse_line (sa ++ " " ++ sb ++ " -") sa sb "-" a b
    [⟨TokenId.minus, none⟩] ha hb (by decide) rfl hdata
  have hcg : codegen
      [⟨TokenId.digit, some sa⟩, ⟨TokenId.digit, some sb⟩, ⟨TokenId.minus, none⟩]
      = Except.ok [⟨OpCode.push, [Value.int a]⟩, ⟨OpCode.push, [Value.int b]⟩,
          ⟨OpCode.sub, []⟩, ⟨OpCode.printTop, []⟩] := by
    simp [codegen, codegenStep, ha, hb, List.foldlM, ok_bind]
  unfold execute
  rw [htoks, ok_bind]
  simp only [List.cons_append, List.nil_append]
  rw [hcg, ok_bind]
  exact run_sub_prog fuel a b hsub

theorem execute_mul_line (sa sb : String) (a b : Int) (fuel : Nat)
    (ha : parseI32 sa = some a) (hb : parseI32 sb = some b)
    (hmul : fitsI32 (a * b) = true) :
    execute (fuel + 4) VM.initial (sa ++ " " ++ sb ++ " *")
      = Except.ok (⟨[Value.int (a * b)], [], 4⟩, false) := by
  have hdata : (sa ++ " " ++ sb ++ " *").data
      = sa.data ++ ' ' :: (sb.data ++ ' ' :: ("*" : String).data) := by
    simp [String.data_append, show (" " : String).data = [' '] from rfl,
      show (" *" : String).data = [' ', '*'] from rfl,
      show ("*" : String).data = ['*'] from rfl]
  have htoks := parse_line (sa ++ " " ++ sb ++ " *") sa sb "*" a b
    [⟨TokenId.star, none⟩] ha hb (by decide) rfl hdata
  have hcg : codegen
      [⟨TokenId.digit, some sa⟩, ⟨TokenId.digit, some sb⟩, ⟨TokenId.star, none⟩]
      = Except.ok [⟨OpCode.push, [Value.int a]⟩, ⟨OpCode.push, [Value.int b]⟩,
          ⟨OpCode.mul, []⟩, ⟨OpCode.printTop, []⟩] := by
    simp [codegen, codegenStep, ha, hb, List.foldlM, ok_bind]
  unfold execute
  rw [htoks, ok_bind]
  simp only [List.cons_append, List.nil_append]
  rw [hcg, ok_bind]
  exact run_mul_prog fuel a b hmul

theorem execute_div_line (sa sb : String) (a b : Int) (fuel : Nat)
    (ha : parseI32 sa = some a) (hb : parseI32 sb = some b) (hb0 : b ≠ 0)
    (hdiv : fitsI32 (Int.tdiv a b) = true) :
    execute (fuel + 4) VM.initial (sa ++ " " ++ sb ++ " /")
      = Except.ok (⟨[Value.int (Int.tdiv a b)], [], 4⟩, false) := by
  have hdata : (sa ++ " " ++ sb ++ " /").data
      = sa.data ++ ' ' :: (sb.data ++ ' ' :: ("/" : String).data) := by
    simp [String.data_append, show (" " : String).data = [' '] from rfl,
      show (" /" : String).data = [' ', '/'] from rfl,
      show ("/" : String).data = ['/'] from rfl]
  have htoks := parse_line (sa ++ " " ++ sb ++ " /") sa sb "/" a b
    [⟨TokenId.slash, none⟩] ha hb (by decide) rfl hdata
  have hcg : codegen
      [⟨TokenId.digit, some sa⟩, ⟨TokenId.digit, some sb⟩, ⟨TokenId.slash, none⟩]
      = Except.ok [⟨OpCode.push, [Value.int a]⟩, ⟨OpCode.push, [Value.int b]⟩,
          ⟨OpCode.div, []⟩, ⟨OpCode.printTop, []⟩] := by
    simp [codegen, codegenStep, ha, hb, List.foldlM, ok_bind]
  unfold execute
  rw [htoks, ok_bind]
  simp only [List.cons_append, List.nil_append]
  rw [hcg, ok_bind]
  exact run_div_prog fuel a b hb0 hdiv

/-! ## Claim theorems -/

/-- C1: the claim says executing the line consisting of colon SQUARE DUP
star semicolon followed by the line 4 SQUARE leaves the stack holding
exactly 16. In the code the definition line itself is compiled with DUP
and the star emitted as top-level instructions (the builtin and operator
arms of codegen ignore definition mode, so BeginDefine captures only the
name), and running it aborts with the unwrap panic when the leaked Dup
pops the empty stack; the second line is never reached and no stack
holds 16. -/
theorem c1_square_definition_line_aborts :
    (parse ": SQUARE DUP * ;" >>= codegen)
      = Except.ok [⟨OpCode.beginDefine, [Value.str "SQUARE"]⟩, ⟨OpCode.dup, []⟩,
          ⟨OpCode.mul, []⟩, ⟨OpCode.endDefine, []⟩, ⟨OpCode.printTop, []⟩] ∧
    execute 1000 VM.initial ": SQUARE DUP * ;" = Except.error RtError.unwrapNone :=
  ⟨rfl, rfl⟩

/-- C2: the claim says invoking a registered word runs its body against
the same stack and word table, so its pushes, pops and definitions
persist into the caller. In the code the Push arm runs the body on
self.clone() and drops the clone: invoking the word ONE whose body
pushes 1 leaves the caller stack empty, and invoking the word DEF whose
body defines NEW leaves the caller word table unchanged; the body does
execute (a word BAD whose body underflows propagates the panic), but
every effect of a successful body run is discarded. -/
theorem c2_word_invocation_discards_effects :
    run 1000 ⟨[], [⟨"ONE", [⟨OpCode.push, [Value.int 1]⟩]⟩], 0⟩
        [⟨OpCode.push, [Value.str "ONE"]⟩]
      = Except.ok (⟨[], [⟨"ONE", [⟨OpCode.push, [Value.int 1]⟩]⟩], 1⟩, false) ∧
    run 1000 ⟨[], [⟨"BAD", [⟨OpCode.add, []⟩]⟩], 0⟩
        [⟨OpCode.push, [Value.str "BAD"]⟩]
      = Except.error RtError.unwrapNone ∧
    run 1000 ⟨[], [⟨"DEF", [⟨OpCode.beginDefine, [Value.str "NEW"]⟩]⟩], 0⟩
        [⟨OpCode.push, [Value.str "DEF"]⟩]
      = Except.ok (⟨[], [⟨"DEF", [⟨OpCode.beginDefine, [Value.str "NEW"]⟩]⟩], 1⟩, false) :=
  ⟨rfl, rfl, rfl⟩

/-- C3: the claim says an opcode lacking operands (the line consisting
only of plus) yields a reported RuntimeStackUnderflow for that line
while the process survives and state is preserved. In the code the Add
arm calls pop().unwrap() on the empty stack, which panics and aborts the
whole process. -/
theorem c3_underflow_aborts_process :
    execute 1000 VM.initial "+" = Except.error RtError.unwrapNone := rfl

/-- C4: the claim says the line 5 0 slash yields a reported
RuntimeArithmeticError and leaves the stack unchanged. In the code the
Div arm evaluates 5 / 0 with Rust i32 division, which panics and aborts
the whole process; no error value is produced and no state survives. -/
theorem c4_div_by_zero_aborts :
    (parse "5 0 /" >>= codegen)
      = Except.ok [⟨OpCode.push, [Value.int 5]⟩, ⟨OpCode.push, [Value.int 0]⟩,
          ⟨OpCode.div, []⟩, ⟨OpCode.printTop, []⟩] ∧
    execute 1000 VM.initial "5 0 /" = Except.error RtError.divideByZero :=
  ⟨rfl, rfl⟩

/-- C5: the claim says that while definition mode is active an
arithmetic token is appended to the in-progress word body rather than
the top-level sequence. In the code the Plus, Minus, Star and Slash arms
of codegen never consult definition mode: with definition mode set they
still append the arithmetic instruction to the top-level opcodes list
and leave the open BeginDefine operand list untouched, as the compile of
the line colon W plus semicolon shows. -/
theorem c5_defining_arith_goes_toplevel :
    (∀ ops d,
      codegenStep (ops, d, true) ⟨TokenId.plus, none⟩
        = Except.ok (ops ++ [⟨OpCode.add, []⟩], d, true) ∧
      codegenStep (ops, d, true) ⟨TokenId.minus, none⟩
        = Except.ok (ops ++ [⟨OpCode.sub, []⟩], d, true) ∧
      codegenStep (ops, d, true) ⟨TokenId.star, none⟩
        = Except.ok (ops ++ [⟨OpCode.mul, []⟩], d, true) ∧
      codegenStep (ops, d, true) ⟨TokenId.slash, none⟩
        = Except.ok (ops ++ [⟨OpCode.div, []⟩], d, true)) ∧
    (parse ": W + ;" >>= codegen)
      = Except.ok [⟨OpCode.beginDefine, [Value.str "W"]⟩, ⟨OpCode.add, []⟩,
          ⟨OpCode.endDefine, []⟩, ⟨OpCode.printTop, []⟩] :=
  ⟨fun ops d => ⟨rfl, rfl, rfl, rfl⟩, rfl⟩

/-- C6: the claim says a multi-word quoted string becomes exactly one
text token with the quotes stripped and no tokens from the interior
words, so defining and invoking GREET pushes the string HELLO WORLD. In
the code the reassembled token keeps both quotes (the stripping arm of
parse is unreachable), a three-word quoted string also re-lexes its
interior word B into a second token, and executing the GREET definition
aborts with the panic Expected an Instruction when BeginDefine meets the
Str operand the code generator produced. -/
theorem c6_quoted_string_lexing :
    parse "\"HELLO WORLD\"" = Except.ok [⟨TokenId.text, some "\"HELLO WORLD\""⟩] ∧
    parse "\"A B C\""
      = Except.ok [⟨TokenId.text, some "\"A B C\""⟩, ⟨TokenId.text, some "B"⟩] ∧
    execute 1000 VM.initial ": GREET \"HELLO WORLD\" ;"
      = Except.error RtError.expectedInstruction :=
  ⟨rfl, rfl, rfl⟩

/-- C7: the claim says an unterminated quoted string is rejected with a
lexical error and the lexer never indexes past the end of the word
sequence. In the code the reassembly loop reads words at index i+j
without any bound check, so a lone opening quote runs off the end of the
word vector and panics with an index out of bounds, aborting the
process. -/
theorem c7_unterminated_quote_index_oob :
    parse "\"HELLO" = Except.error RtError.indexOutOfBounds ∧
    execute 1000 VM.initial "\"HELLO" = Except.error RtError.indexOutOfBounds :=
  ⟨rfl, rfl⟩

/-- C8 counterexample: the claim quantifies over all integer pairs, but
at a = 2147483647 and b = 1 the line a b plus aborts with the i32
overflow panic instead of leaving a+b on the stack. -/
theorem c8_arith_overflow_counterexample :
    execute 1000 VM.initial "2147483647 1 +" = Except.error RtError.overflow ∧
    (execute 1000 VM.initial "2147483647 1 +"
      = Except.ok (⟨[Value.int (2147483647 + 1)], [], 4⟩, false)) = False := by
  constructor
  · rfl
  · simp [show execute 1000 VM.initial "2147483647 1 +"
      = Except.error RtError.overflow from rfl]

/-- C8 amended: for words that parse as i32 integers a and b with b
nonzero, and whose sum, difference, product and truncated quotient each
fit in i32, compiling and running the four lines a b plus, a b minus,
a b star, a b slash leaves exactly a+b, a-b, a*b and the truncated
quotient on top of the stack: the arithmetic arms pop b then a and push
a op b. -/
theorem c8_arith_lines_amended (sa sb : String) (a b : Int) (fuel : Nat)
    (ha : parseI32 sa = some a) (hb : parseI32 sb = some b) (hb0 : b ≠ 0)
    (hadd : fitsI32 (a + b) = true) (hsub : fitsI32 (a - b) = true)
    (hmul : fitsI32 (a * b) = true) (hdiv : fitsI32 (Int.tdiv a b) = true) :
    execute (fuel + 4) VM.initial (sa ++ " " ++ sb ++ " +")
      = Except.ok (⟨[Value.int (a + b)], [], 4⟩, false) ∧
    execute (fuel + 4) VM.initial (sa ++ " " ++ sb ++ " -")
      = Except.ok (⟨[Value.int (a - b)], [], 4⟩, false) ∧
    execute (fuel + 4) VM.initial (sa ++ " " ++ sb ++ " *")
      = Except.ok (⟨[Value.int (a * b)], [], 4⟩, false) ∧
    execute (fuel + 4) VM.initial (sa ++ " " ++ sb ++ " /")
      = Except.ok (⟨[Value.int (Int.tdiv a b)], [], 4⟩, false) :=
  ⟨execute_add_line sa sb a b fuel ha hb hadd,
   execute_sub_line sa sb a b fuel ha hb hsub,
   execute_mul_line sa sb a b fuel ha hb hmul,
   execute_div_line sa sb a b fuel ha hb hb0 hdiv⟩

/-- C8 witness: the amended theorem applied at the concrete pair 6 and
3 with fuel 1000. -/
theorem c8_arith_lines_witness :
    execute 1000 VM.initial "6 3 +"
      = Except.ok (⟨[Value.int (6 + 3)], [], 4⟩, false) ∧
    execute 1000 VM.initial "6 3 -"
      = Except.ok (⟨[Value.int (6 - 3)], [], 4⟩, false) ∧
    execute 1000 VM.initial "6 3 *"
      = Except.ok (⟨[Value.int (6 * 3)], [], 4⟩, false) ∧
    execute 1000 VM.initial "6 3 /"
      = Except.ok (⟨[Value.int (Int.tdiv 6 3)], [], 4⟩, false) :=
  c8_arith_lines_amended "6" "3" 6 3 996 rfl rfl (by decide) rfl rfl rfl rfl

/-- C9: every semicolon token compiles to an EndDefine instruction
appended to the top-level sequence regardless of the mode flags, the run
dispatch sends EndDefine to the wildcard unimplemented arm, so any
execution reaching an EndDefine instruction aborts, as the compiled line
colon W semicolon does end to end. -/
theorem c9_semicolon_enddefine_unimplemented :
    (∀ ops d1 d2 x, codegenStep (ops, d1, d2) ⟨TokenId.semicolon, x⟩
        = Except.ok (ops ++ [⟨OpCode.endDefine, []⟩], d1, false)) ∧
    (∀ fuel vm se instrs vals,
        instrs.get? vm.ip = some ⟨OpCode.endDefine, vals⟩ →
        runLoop (fuel + 1) vm se instrs = Except.error RtError.unimplementedOp) ∧
    execute 1000 VM.initial ": W ;" = Except.error RtError.unimplementedOp := by
  refine ⟨fun ops d1 d2 x => rfl, ?_, rfl⟩
  intro fuel vm se instrs vals h
  obtain ⟨hlt, hget⟩ := List.get?_eq_some.mp h
  rw [List.get_eq_getElem] at hget
  simp only [runLoop]
  rw [dif_pos hlt]
  simp [hget]

/-- C9 witness: the run dispatch conjunct applied to the one-instruction
program holding EndDefine at the instruction pointer. -/
theorem c9_semicolon_enddefine_witness :
    runLoop 1 ⟨[], [], 0⟩ false [⟨OpCode.endDefine, []⟩]
      = Except.error RtError.unimplementedOp :=
  c9_semicolon_enddefine_unimplemented.2.1 0 ⟨[], [], 0⟩ false
    [⟨OpCode.endDefine, []⟩] [] rfl

/-- C10: Drop and Pop on an empty operand stack succeed and leave the
stack empty (the popped Option is discarded), for any word table and any
fuel, unlike Dup or Add whose unwrap panics there; end to end the lines
DROP and POP on a fresh machine complete normally. -/
theorem c10_drop_pop_empty_stack_ok :
    (∀ fuel cmds, runLoop (fuel + 1) ⟨[], cmds, 0⟩ false [⟨OpCode.drop, []⟩]
        = Except.ok (⟨[], cmds, 1⟩, false)) ∧
    (∀ fuel cmds, runLoop (fuel + 1) ⟨[], cmds, 0⟩ false [⟨OpCode.pop, []⟩]
        = Except.ok (⟨[], cmds, 1⟩, false)) ∧
    (∀ fuel cmds, runLoop (fuel + 1) ⟨[], cmds, 0⟩ false [⟨OpCode.dup, []⟩]
        = Except.error RtError.unwrapNone) ∧
    (∀ fuel cmds, runLoop (fuel + 1) ⟨[], cmds, 0⟩ false [⟨OpCode.add, []⟩]
        = Except.error RtError.unwrapNone) ∧
    execute 1000 VM.initial "DROP" = Except.ok (⟨[], [], 2⟩, false) ∧
    execute 1000 VM.initial "POP" = Except.ok (⟨[], [], 2⟩, false) :=
  ⟨fun fuel cmds => runLoop_done fuel ⟨[], cmds, 1⟩ false [⟨OpCode.drop, []⟩] (by simp),
   fun fuel cmds => runLoop_done fuel ⟨[], cmds, 1⟩ false [⟨OpCode.pop, []⟩] (by simp),
   fun fuel cmds => rfl,
   fun fuel cmds => rfl,
   rfl, rfl⟩

end Rorth2
